import Mathlib

/-!
Shallow embedding of the chest-xray-classification repository
(src/predict.py and src/train_model.py) together with proofs about
the claims of its specification.

The prediction-interpretation logic, the batch loop, the path
resolution of the CLI and the model topology are translated directly
from the Python source.  External collaborators (the deep-learning
framework, the image library, the file system) are modelled as
explicit parameters: the model is a function from an image path to
either a raw sigmoid output or an exception, the file system is a
function from a path to its kind.
-/

namespace ChestXray

/-! ## Constants from src/predict.py and src/train_model.py -/

/-- IMG_SIZE constant, predict.py line 15 and train_model.py line 24. -/
def IMG_SIZE : Nat := 150

/-- MODEL_PATH constant, predict.py line 16. -/
def MODEL_PATH : String := "best_model.keras"

/-- EPOCHS constant, train_model.py line 26. -/
def EPOCHS : Nat := 10

/-- LEARNING_RATE constant, train_model.py line 27. -/
def LEARNING_RATE : ℚ := 1/1000

/-- BATCH_SIZE constant, train_model.py line 25. -/
def BATCH_SIZE : Nat := 32

/-! ## Prediction interpretation (predict.py, predict_image) -/

/-- The two diagnosis labels printed by predict.py. -/
inductive Diagnosis where
  | NORMAL
  | PNEUMONIA
deriving DecidableEq, Repr

/-- Interpretation of the raw sigmoid output, predict.py lines 51-58:
if prediction > 0.5 the diagnosis is PNEUMONIA with confidence equal to
the prediction, otherwise NORMAL with confidence 1 - prediction. -/
def interpretPrediction (p : ℚ) : Diagnosis × ℚ :=
  if p > 1/2 then (Diagnosis.PNEUMONIA, p) else (Diagnosis.NORMAL, 1 - p)

/-- The preprocessing-plus-inference step for one image path.  Opening,
decoding and running the network are external calls that may raise an
exception; the composite is modelled as a function from the path to
either the raw sigmoid output or an error message. -/
abbrev ModelFun := String → Except String ℚ

/-- predict_image, predict.py lines 42-76 (with show=False): preprocess
and predict, then interpret; returns (diagnosis, confidence, raw score),
propagating any exception from preprocessing or inference. -/
def predict_image (m : ModelFun) (path : String) :
    Except String (Diagnosis × ℚ × ℚ) :=
  match m path with
  | Except.error e => Except.error e
  | Except.ok p =>
      Except.ok ((interpretPrediction p).1, (interpretPrediction p).2, p)

/-- os.path.basename for forward-slash paths, as used by predict_batch. -/
def basename (p : String) : String :=
  (p.splitOn ("/")).getLastD p

/-- One entry of the results list built by predict_batch,
predict.py lines 89-94. -/
structure PredResult where
  image : String
  diagnosis : Diagnosis
  confidence : ℚ
  raw_score : ℚ
deriving DecidableEq, Repr

/-- predict_batch, predict.py lines 78-107: for each image path in
order, try predict_image; on success append a result record, on any
exception print the error and continue with the next image. -/
def predict_batch (m : ModelFun) : List String → List PredResult
  | [] => []
  | p :: rest =>
    match predict_image m p with
    | Except.ok (d, c, raw) =>
        { image := basename p, diagnosis := d, confidence := c,
          raw_score := raw } :: predict_batch m rest
    | Except.error _ => predict_batch m rest

/-- Summary count of NORMAL results, predict.py line 102. -/
def normalCount (rs : List PredResult) : Nat :=
  rs.countP (fun r => r.diagnosis == Diagnosis.NORMAL)

/-- Summary count of PNEUMONIA results, predict.py line 103. -/
def pneumoniaCount (rs : List PredResult) : Nat :=
  rs.countP (fun r => r.diagnosis == Diagnosis.PNEUMONIA)

/-! ## Path resolution and the CLI driver (predict.py, main) -/

/-- What the file system holds at a path: a directory with a listing
(in os.listdir order), a regular file, or nothing. -/
inductive PathKind where
  | directory (files : List String)
  | file
  | missing
deriving DecidableEq

/-- A file system is a map from paths to path kinds. -/
abbrev FS := String → PathKind

/-- The test f.lower().endswith(ext) from predict.py line 126:
case-insensitive suffix match. -/
def lowerEndsWith (f ext : String) : Bool :=
  ext.data.isSuffixOf (f.data.map Char.toLower)

/-- The extension list iterated by predict.py line 124. -/
def IMG_EXTS : List String := [".jpg", ".jpeg", ".png"]

/-- os.path.join for a directory and a child name. -/
def osJoin (d f : String) : String := d ++ "/" ++ f

/-- Directory expansion, predict.py lines 124-126: for each extension
in IMG_EXTS in order, append the matching children of the listing in
listing order. -/
def resolveDir (d : String) (files : List String) : List String :=
  IMG_EXTS.flatMap (fun ext =>
    (files.filter (fun f => lowerEndsWith f ext)).map (osJoin d))

/-- A name matches when it carries one of the three image extensions,
case-insensitively. -/
def isImageName (f : String) : Bool :=
  IMG_EXTS.any (fun ext => lowerEndsWith f ext)

/-- Directory expansion as the specification words it: exactly the
matching children, in directory listing order.  Used to compare the
code with the spec sentence about order. -/
def resolveDirSpec (d : String) (files : List String) : List String :=
  (files.filter isImageName).map (osJoin d)

/-- Resolution of one CLI path argument, predict.py lines 122-128:
a directory expands to its matching children, an existing regular file
is appended as given, a missing path is dropped. -/
def resolveOne (fs : FS) (p : String) : List String :=
  match fs p with
  | PathKind.directory files => resolveDir p files
  | PathKind.file => [p]
  | PathKind.missing => []

/-- Resolution of the whole argument list, predict.py lines 121-128. -/
def resolvePaths (fs : FS) (args : List String) : List String :=
  args.flatMap (resolveOne fs)

/-- What main does after resolution, predict.py lines 130-138: empty
list prints the no-valid-images message and returns, one image runs
single-image mode, several run batch mode. -/
inductive MainOutcome where
  | noValidImages
  | singleImage (p : String)
  | batchImages (ps : List String)
deriving DecidableEq

/-- The dispatch at the end of main, predict.py lines 130-138. -/
def mainDispatch : List String → MainOutcome
  | [] => MainOutcome.noValidImages
  | [p] => MainOutcome.singleImage p
  | p :: q :: rest => MainOutcome.batchImages (p :: q :: rest)

/-- How many calls into predict_image each outcome performs. -/
def predictionCalls : MainOutcome → Nat
  | MainOutcome.noValidImages => 0
  | MainOutcome.singleImage _ => 1
  | MainOutcome.batchImages ps => ps.length

/-- The error raised by load_model, predict.py line 21. -/
inductive LoadErr where
  | fileNotFound (path : String)
deriving DecidableEq

/-- os.path.exists: true when the path holds a file or a directory. -/
def fileExists (fs : FS) (p : String) : Bool :=
  match fs p with
  | PathKind.missing => false
  | _ => true

/-- load_model, predict.py lines 18-26: raise FileNotFoundError when
the path does not exist, otherwise load and return the model.  The
loaded model object itself is external, so it is represented by Unit. -/
def load_model (fs : FS) (path : String) : Except LoadErr Unit :=
  if fileExists fs path then Except.ok () else
    Except.error (LoadErr.fileNotFound path)

/-- main, predict.py lines 109-138: parse arguments, load the model
(raising when it is missing), then resolve the image paths and
dispatch.  An uncaught load error terminates the process before any
path resolution or prediction. -/
def mainRun (fs : FS) (modelPath : String) (args : List String) :
    Except LoadErr MainOutcome :=
  match load_model fs modelPath with
  | Except.error e => Except.error e
  | Except.ok _ => Except.ok (mainDispatch (resolvePaths fs args))

/-! ## Preprocessing (predict.py, preprocess_image) -/

/-- One decoded RGB pixel: channel values 0..255. -/
structure RGB where
  r : Nat
  g : Nat
  b : Nat
deriving DecidableEq, Repr

/-- A decoded, resized image: rows of pixels. -/
abbrev RawImage := List (List RGB)

/-- A normalized tensor: rows of rational channel triples in [0,1]. -/
abbrev Tensor := List (List (ℚ × ℚ × ℚ))

/-- Pixel rescaling, predict.py line 35: divide by 255. -/
def rescale (v : Nat) : ℚ := (v : ℚ) / 255

/-- Normalization of a decoded image, predict.py line 35. -/
def normalizeImage (img : RawImage) : Tensor :=
  img.map (List.map (fun p => (rescale p.r, rescale p.g, rescale p.b)))

/-- np.expand_dims(img_array, axis=0), predict.py line 38. -/
def expandDims (t : Tensor) : List Tensor := [t]

/-- A stream of randomness, threaded through image pipelines so that
dependence (of the augmented training path) and independence (of the
prediction path) on randomness can be stated. -/
abbrev Rng := Nat

/-- preprocess_image, predict.py lines 28-40: open, convert to RGB and
resize (the deterministic external decode), normalize by 255, add a
batch dimension, and return both the tensor and the decoded image.
The source makes no call into any random source, so the randomness
stream passes through untouched. -/
def preprocess_image (decode : String → RawImage) (path : String)
    (rng : Rng) : (List Tensor × RawImage) × Rng :=
  ((expandDims (normalizeImage (decode path)), decode path), rng)

/-- The horizontal_flip augmentation of train_model.py line 37, the
contrasting training-only path: it consumes one random bit. -/
def randomFlip (img : RawImage) (rng : Rng) : RawImage × Rng :=
  (if rng % 2 == 1 then img.map List.reverse else img, rng / 2)

/-! ## Model topology (train_model.py, create_model) -/

/-- Activations used by the network. -/
inductive Activation where
  | relu
  | sigmoid
deriving DecidableEq, Repr

/-- One layer of the sequential network, with its configuration. -/
inductive Layer where
  | conv2d (filters kh kw : Nat) (act : Activation)
  | batchNorm
  | maxPool (ph pw : Nat)
  | flatten
  | dropout (rate : ℚ)
  | dense (units : Nat) (act : Activation)
deriving DecidableEq, Repr

/-- create_model, train_model.py lines 68-98: the fixed sequential
topology. -/
def create_model : List Layer :=
  [ -- first convolutional block
    Layer.conv2d 32 3 3 Activation.relu,
    Layer.batchNorm,
    Layer.maxPool 2 2,
    -- second convolutional block
    Layer.conv2d 64 3 3 Activation.relu,
    Layer.batchNorm,
    Layer.maxPool 2 2,
    -- third convolutional block
    Layer.conv2d 128 3 3 Activation.relu,
    Layer.batchNorm,
    Layer.maxPool 2 2,
    -- fourth convolutional block
    Layer.conv2d 128 3 3 Activation.relu,
    Layer.batchNorm,
    Layer.maxPool 2 2,
    -- flatten and dense layers
    Layer.flatten,
    Layer.dropout (1/2),
    Layer.dense 512 Activation.relu,
    Layer.dropout (3/10),
    Layer.dense 1 Activation.sigmoid ]

/-! ## Training loop with early stopping (train_model.py, callbacks and
model.fit)

Modelled from the spec: the epoch loop and the EarlyStopping callback
live inside the external framework; src/train_model.py only configures
them (monitor val_loss, patience 3, restore_best_weights, EPOCHS 10,
lines 112-117 and 133-138).  The loop below follows the spec's
training-controller description: run up to EPOCHS epochs; an epoch
improves when its validation loss is strictly below the best seen;
after PATIENCE consecutive non-improving epochs, halt and restore the
parameters of the best epoch.  Weights are identified by the index of
the epoch that produced them. -/

/-- Patience of the EarlyStopping callback, train_model.py line 115. -/
def PATIENCE : Nat := 3

/-- State of the epoch loop: epochs completed, best validation loss
seen with its epoch, the count of consecutive non-improving epochs,
whether training has halted, and which epoch produced the weights
currently in the model. -/
structure ESState where
  epoch : Nat
  best : Option ℚ
  bestEpoch : Nat
  wait : Nat
  stopped : Bool
  weights : Nat
deriving DecidableEq, Repr

/-- Whether a validation loss improves on the best seen so far
(anything improves on no history; otherwise strictly smaller). -/
def improved (best : Option ℚ) (l : ℚ) : Bool :=
  match best with
  | none => true
  | some b => decide (l < b)

/-- One epoch of the loop.  A halted loop does nothing.  Otherwise the
epoch trains (weights become this epoch), then the callback observes
the validation loss: on improvement record it and reset the wait
counter; otherwise increment it, and when it reaches PATIENCE halt and
restore the best epoch's weights. -/
def esStep (v : Nat → ℚ) (s : ESState) : ESState :=
  if s.stopped then s
  else
    if improved s.best (v s.epoch) then
      { epoch := s.epoch + 1, best := some (v s.epoch), bestEpoch := s.epoch,
        wait := 0, stopped := false, weights := s.epoch }
    else if s.wait + 1 ≥ PATIENCE then
      { epoch := s.epoch + 1, best := s.best, bestEpoch := s.bestEpoch,
        wait := s.wait + 1, stopped := true, weights := s.bestEpoch }
    else
      { epoch := s.epoch + 1, best := s.best, bestEpoch := s.bestEpoch,
        wait := s.wait + 1, stopped := false, weights := s.epoch }

/-- The loop starts with no history and untrained weights. -/
def esInit : ESState :=
  { epoch := 0, best := none, bestEpoch := 0, wait := 0,
    stopped := false, weights := 0 }

/-- model.fit with the EarlyStopping callback: iterate the epoch step
EPOCHS times (a halted state absorbs the remaining iterations). -/
def fitES (v : Nat → ℚ) : ESState :=
  (esStep v)^[EPOCHS] esInit

/-- Invariant of the epoch loop after n iterations. -/
def ESInv (v : Nat → ℚ) (n : Nat) (s : ESState) : Prop :=
  s.epoch ≤ n
  ∧ (s.stopped = false → s.epoch = n ∧ s.wait < PATIENCE)
  ∧ (s.stopped = true →
      s.wait = PATIENCE ∧ s.weights = s.bestEpoch ∧ s.best.isSome = true)
  ∧ (s.best = none → s.epoch = 0)
  ∧ (∀ b, s.best = some b →
      b = v s.bestEpoch ∧ s.bestEpoch < s.epoch ∧ ∀ i < s.epoch, b ≤ v i)

/-! ## Theorems -/

/-- C1: for every raw model output p in (0,1), the diagnosis is
PNEUMONIA iff p > 0.5 (and NORMAL at exactly 0.5), and the reported
confidence equals max(p, 1-p), hence is at least 0.5 (p for PNEUMONIA,
1-p for NORMAL). -/
theorem C1_threshold_confidence (p : ℚ) (hp0 : 0 < p) (hp1 : p < 1) :
    ((interpretPrediction p).1 = Diagnosis.PNEUMONIA ↔ 1/2 < p)
    ∧ (interpretPrediction (1/2)).1 = Diagnosis.NORMAL
    ∧ (interpretPrediction p).2 = max p (1 - p)
    ∧ 1/2 ≤ (interpretPrediction p).2
    ∧ (1/2 < p → (interpretPrediction p).2 = p)
    ∧ (p ≤ 1/2 → (interpretPrediction p).2 = 1 - p) := by
  rcases le_or_lt p (1/2) with h | h
  · have hnot : ¬ (1/2 : ℚ) < p := not_lt.mpr h
    have hb : (interpretPrediction p) = (Diagnosis.NORMAL, 1 - p) := by
      unfold interpretPrediction; rw [if_neg hnot]
    refine ⟨?_, ?_, ?_, ?_, ?_, ?_⟩
    · rw [hb]; simp [hnot]; linarith
    · simp [interpretPrediction]
    · rw [hb]
      have : p ≤ 1 - p := by linarith
      simp [max_eq_right this]
    · rw [hb]; simp; linarith
    · intro hc; exact absurd hc hnot
    · intro _; rw [hb]
  · have hb : (interpretPrediction p) = (Diagnosis.PNEUMONIA, p) := by
      unfold interpretPrediction; rw [if_pos h]
    refine ⟨?_, ?_, ?_, ?_, ?_, ?_⟩
    · rw [hb]; simp; linarith
    · simp [interpretPrediction]
    · rw [hb]
      have : 1 - p ≤ p := by linarith
      simp [max_eq_left this]
    · rw [hb]; simp; linarith
    · intro _; rw [hb]
    · intro hc; exact absurd h (not_lt.mpr hc)

/-- Witness for C1 at p = 3/4. -/
theorem C1_threshold_confidence_witness :
    (0 : ℚ) < 3/4 ∧ (3/4 : ℚ) < 1
    ∧ (((interpretPrediction (3/4)).1 = Diagnosis.PNEUMONIA ↔ (1:ℚ)/2 < 3/4)
       ∧ (interpretPrediction (1/2)).1 = Diagnosis.NORMAL
       ∧ (interpretPrediction (3/4)).2 = max (3/4 : ℚ) (1 - 3/4)
       ∧ (1:ℚ)/2 ≤ (interpretPrediction (3/4)).2
       ∧ ((1:ℚ)/2 < 3/4 → (interpretPrediction (3/4)).2 = 3/4)
       ∧ ((3/4 : ℚ) ≤ 1/2 → (interpretPrediction (3/4)).2 = 1 - 3/4)) :=
  ⟨by norm_num, by norm_num,
    C1_threshold_confidence (3/4) (by norm_num) (by norm_num)⟩

/-- Helper: each result contributes to exactly one of the two summary
counts, because a diagnosis is NORMAL or PNEUMONIA. -/
theorem counts_cons (r : PredResult) (rs : List PredResult) :
    normalCount (r :: rs) + pneumoniaCount (r :: rs)
      = (normalCount rs + pneumoniaCount rs) + 1 := by
  cases h : r.diagnosis <;>
    simp [normalCount, pneumoniaCount, List.countP_cons, h] <;> omega

/-- C2: batch mode visits every image (the results are exactly the
per-path successes, in order), a failing image is skipped and the
batch continues with the next image, and the two summary counts sum to
the number of successfully processed images, failures excluded from
both counts. -/
theorem C2_batch_skip_and_counts (m : ModelFun) (paths : List String) :
    predict_batch m paths = paths.filterMap (fun p =>
        match predict_image m p with
        | Except.ok (d, c, raw) =>
            some { image := basename p, diagnosis := d, confidence := c,
                   raw_score := raw }
        | Except.error _ => none)
    ∧ normalCount (predict_batch m paths)
        + pneumoniaCount (predict_batch m paths)
      = (predict_batch m paths).length
    ∧ (predict_batch m paths).length
        = paths.countP (fun p => (predict_image m p).isOk)
    ∧ ∀ p rest, (predict_image m p).isOk = false →
        predict_batch m (p :: rest) = predict_batch m rest := by
  refine ⟨?_, ?_, ?_, ?_⟩
  · induction paths with
    | nil => rfl
    | cons p rest ih =>
      cases h : predict_image m p with
      | ok v =>
        obtain ⟨d, c, raw⟩ := v
        simp [predict_batch, h, List.filterMap_cons, ih]
      | error e =>
        simp [predict_batch, h, List.filterMap_cons, ih]
  · induction paths with
    | nil => rfl
    | cons p rest ih =>
      cases h : predict_image m p with
      | ok v =>
        obtain ⟨d, c, raw⟩ := v
        simp only [predict_batch, h]
        rw [counts_cons, ih]
        simp
      | error e =>
        simp only [predict_batch, h]
        exact ih
  · induction paths with
    | nil => rfl
    | cons p rest ih =>
      cases h : predict_image m p with
      | ok v =>
        obtain ⟨d, c, raw⟩ := v
        simp [predict_batch, h, List.countP_cons, ih, Except.isOk, Except.toBool]
      | error e =>
        simp [predict_batch, h, List.countP_cons, ih, Except.isOk, Except.toBool]
  · intro p rest h
    cases hp : predict_image m p with
    | ok v => rw [hp] at h; simp [Except.isOk, Except.toBool] at h
    | error e => simp [predict_batch, hp]

/-- Witness for C2: a model that throws on one path; the batch over
a failing image then a good one equals the batch over the good one
alone. -/
theorem C2_batch_skip_and_counts_witness :
    (predict_image
        (fun p => if p == "bad.jpg" then Except.error ("boom")
                  else Except.ok ((9:ℚ)/10)) ("bad.jpg")).isOk = false
    ∧ predict_batch
        (fun p => if p == "bad.jpg" then Except.error ("boom")
                  else Except.ok ((9:ℚ)/10)) ["bad.jpg", "a.jpg"]
      = predict_batch
          (fun p => if p == "bad.jpg" then Except.error ("boom")
                    else Except.ok ((9:ℚ)/10)) ["a.jpg"] :=
  ⟨by decide,
    (C2_batch_skip_and_counts
        (fun p => if p == "bad.jpg" then Except.error ("boom")
                  else Except.ok ((9:ℚ)/10)) []).2.2.2
      ("bad.jpg") ["a.jpg"] (by decide)⟩

/-- Helper: two incomparable lists cannot both be suffixes of the same
list. -/
theorem suffix_incomp {a b l : List Char} (hab : ¬ a <:+ b) (hba : ¬ b <:+ a)
    (h1 : a.isSuffixOf l = true) (h2 : b.isSuffixOf l = true) : False := by
  rw [List.isSuffixOf_iff_suffix] at h1 h2
  rcases List.suffix_or_suffix_of_suffix h1 h2 with h | h
  · exact hab h
  · exact hba h

/-- Helper: no name matches both the .jpg and the .jpeg test. -/
theorem extDisjoint_jpg_jpeg (f : String) :
    lowerEndsWith f (".jpg") = true → lowerEndsWith f (".jpeg") = false := by
  intro h1
  by_contra hq
  rw [Bool.not_eq_false] at hq
  exact suffix_incomp (by decide) (by decide) h1 hq

/-- Helper: no name matches both the .jpg and the .png test. -/
theorem extDisjoint_jpg_png (f : String) :
    lowerEndsWith f (".jpg") = true → lowerEndsWith f (".png") = false := by
  intro h1
  by_contra hq
  rw [Bool.not_eq_false] at hq
  exact suffix_incomp (by decide) (by decide) h1 hq

/-- Helper: no name matches both the .jpeg and the .png test. -/
theorem extDisjoint_jpeg_png (f : String) :
    lowerEndsWith f (".jpeg") = true → lowerEndsWith f (".png") = false := by
  intro h1
  by_contra hq
  rw [Bool.not_eq_false] at hq
  exact suffix_incomp (by decide) (by decide) h1 hq

/-- Helper: concatenating the filters of three pairwise-disjoint
predicates permutes the filter of their disjunction. -/
theorem filter_three_disjoint_perm {α : Type} (p q r : α → Bool)
    (l : List α)
    (hpq : ∀ a, p a = true → q a = false)
    (hpr : ∀ a, p a = true → r a = false)
    (hqr : ∀ a, q a = true → r a = false) :
    (l.filter p ++ l.filter q ++ l.filter r).Perm
      (l.filter (fun a => p a || q a || r a)) := by
  induction l with
  | nil => simp
  | cons x xs ih =>
    by_cases hp : p x = true
    · have hq := hpq x hp
      have hr := hpr x hp
      simp only [List.filter_cons, hp, hq, hr, Bool.true_or,
        Bool.false_or, Bool.or_false, if_true, if_false,
        Bool.false_eq_true, List.cons_append]
      exact ih.cons x
    · rw [Bool.not_eq_true] at hp
      by_cases hq : q x = true
      · have hr := hqr x hq
        simp only [List.filter_cons, hp, hq, hr, Bool.true_or,
          Bool.or_true, Bool.false_or, Bool.or_false, if_true, if_false,
          Bool.false_eq_true, List.cons_append, List.append_assoc]
        refine List.Perm.trans List.perm_middle (List.Perm.cons x ?_)
        rw [← List.append_assoc]
        exact ih
      · rw [Bool.not_eq_true] at hq
        by_cases hr : r x = true
        · simp only [List.filter_cons, hp, hq, hr, Bool.or_true,
            Bool.false_or, if_true, if_false, Bool.false_eq_true,
            List.append_assoc]
          have hm := @List.perm_middle α x
            (List.filter p xs ++ List.filter q xs) (List.filter r xs)
          have hmid : (List.filter p xs
              ++ (List.filter q xs ++ x :: List.filter r xs)).Perm
              (x :: (List.filter p xs
                ++ (List.filter q xs ++ List.filter r xs))) := by
            simpa [List.append_assoc] using hm
          have ih2 : (List.filter p xs
              ++ (List.filter q xs ++ List.filter r xs)).Perm
              (List.filter (fun a => p a || q a || r a) xs) := by
            rw [← List.append_assoc]
            exact ih
          exact hmid.trans (ih2.cons x)
        · rw [Bool.not_eq_true] at hr
          simp only [List.filter_cons, hp, hq, hr, Bool.false_or,
            if_false, Bool.false_eq_true]
          exact ih

/-- C3 counterexample: for the listing [b.png, a.jpg] the code returns
the .jpg child before the .png child, not the listing order. -/
theorem C3_counterexample :
    resolveDir ("d") ["b.png", "a.jpg"] = ["d/a.jpg", "d/b.png"]
    ∧ resolveDirSpec ("d") ["b.png", "a.jpg"] = ["d/b.png", "d/a.jpg"]
    ∧ resolveDir ("d") ["b.png", "a.jpg"]
        ≠ resolveDirSpec ("d") ["b.png", "a.jpg"] :=
  ⟨by decide, by decide, by decide⟩

/-- C3 amended: directory resolution yields exactly the children whose
names match one of the three extensions case-insensitively (each
exactly once, none other), but grouped by extension in the order .jpg,
.jpeg, .png, with listing order preserved only within each group. -/
theorem C3_amended (d : String) (files : List String) :
    resolveDir d files
      = (files.filter (fun f => lowerEndsWith f (".jpg"))).map (osJoin d)
        ++ (files.filter (fun f => lowerEndsWith f (".jpeg"))).map (osJoin d)
        ++ (files.filter (fun f => lowerEndsWith f (".png"))).map (osJoin d)
    ∧ (resolveDir d files).Perm (resolveDirSpec d files) := by
  have hgroups : resolveDir d files
      = (files.filter (fun f => lowerEndsWith f (".jpg"))).map (osJoin d)
        ++ (files.filter (fun f => lowerEndsWith f (".jpeg"))).map (osJoin d)
        ++ (files.filter (fun f => lowerEndsWith f (".png"))).map (osJoin d) := by
    simp [resolveDir, IMG_EXTS, List.flatMap_cons, List.flatMap_nil,
      List.append_assoc]
  refine ⟨hgroups, ?_⟩
  have hperm := filter_three_disjoint_perm
    (fun f => lowerEndsWith f (".jpg"))
    (fun f => lowerEndsWith f (".jpeg"))
    (fun f => lowerEndsWith f (".png"))
    files extDisjoint_jpg_jpeg extDisjoint_jpg_png extDisjoint_jpeg_png
  have hspec : resolveDirSpec d files
      = (files.filter (fun f =>
          lowerEndsWith f (".jpg") || lowerEndsWith f (".jpeg")
            || lowerEndsWith f (".png"))).map (osJoin d) := by
    unfold resolveDirSpec
    congr 1
    apply List.filter_congr
    intro x _
    cases h1 : lowerEndsWith x (".jpg") <;>
      cases h2 : lowerEndsWith x (".jpeg") <;>
        cases h3 : lowerEndsWith x (".png") <;>
          simp [isImageName, IMG_EXTS, h1, h2, h3]
  rw [hgroups, hspec, ← List.map_append, ← List.map_append]
  exact hperm.map (osJoin d)

/-- C4: when the argument list resolves to zero image paths, main
takes the no-valid-images branch (printing the message and returning
without error) and performs no prediction calls. -/
theorem C4_no_valid_images (fs : FS) (args : List String)
    (h : resolvePaths fs args = []) :
    mainDispatch (resolvePaths fs args) = MainOutcome.noValidImages
    ∧ predictionCalls (mainDispatch (resolvePaths fs args)) = 0 := by
  rw [h]
  exact ⟨rfl, rfl⟩

/-- Witness for C4: a file system with no entries and one missing
argument. -/
theorem C4_no_valid_images_witness :
    resolvePaths (fun _ => PathKind.missing) ["nope.jpg"] = []
    ∧ mainDispatch (resolvePaths (fun _ => PathKind.missing) ["nope.jpg"])
        = MainOutcome.noValidImages
    ∧ predictionCalls
        (mainDispatch (resolvePaths (fun _ => PathKind.missing) ["nope.jpg"]))
        = 0 :=
  ⟨rfl, (C4_no_valid_images (fun _ => PathKind.missing) ["nope.jpg"] rfl).1,
    (C4_no_valid_images (fun _ => PathKind.missing) ["nope.jpg"] rfl).2⟩

/-- C5: when the model file does not exist at the given path,
load_model raises FileNotFoundError; main does not catch it, so the
whole run fails with that error for every argument list (no fallback,
no retry). -/
theorem C5_missing_model_fatal (fs : FS) (path : String)
    (h : fs path = PathKind.missing) :
    load_model fs path = Except.error (LoadErr.fileNotFound path)
    ∧ ∀ args, mainRun fs path args
        = Except.error (LoadErr.fileNotFound path) := by
  have hex : fileExists fs path = false := by
    unfold fileExists
    rw [h]
  constructor
  · unfold load_model
    rw [hex]
    rfl
  · intro args
    unfold mainRun load_model
    rw [hex]
    rfl

/-- Witness for C5 on an empty file system and the default model
path. -/
theorem C5_missing_model_fatal_witness :
    (fun _ => PathKind.missing : FS) MODEL_PATH = PathKind.missing
    ∧ (load_model (fun _ => PathKind.missing) MODEL_PATH
        = Except.error (LoadErr.fileNotFound MODEL_PATH)
      ∧ ∀ args, mainRun (fun _ => PathKind.missing) MODEL_PATH args
          = Except.error (LoadErr.fileNotFound MODEL_PATH)) :=
  ⟨rfl, C5_missing_model_fatal (fun _ => PathKind.missing) MODEL_PATH rfl⟩

/-- C6: create_model is exactly the fixed sequence of four blocks of
convolution (3x3 kernels, widths 32, 64, 128, 128), batch
normalization and 2x2 max pooling, followed by flatten, dropout(0.5),
dense(512, rectified-linear), dropout(0.3) and dense(1, sigmoid). -/
theorem C6_model_topology :
    create_model
      = [Layer.conv2d 32 3 3 Activation.relu, Layer.batchNorm,
          Layer.maxPool 2 2,
         Layer.conv2d 64 3 3 Activation.relu, Layer.batchNorm,
          Layer.maxPool 2 2,
         Layer.conv2d 128 3 3 Activation.relu, Layer.batchNorm,
          Layer.maxPool 2 2,
         Layer.conv2d 128 3 3 Activation.relu, Layer.batchNorm,
          Layer.maxPool 2 2,
         Layer.flatten, Layer.dropout (1/2),
         Layer.dense 512 Activation.relu, Layer.dropout (3/10),
         Layer.dense 1 Activation.sigmoid] := rfl

/-- C8: the non-augmented preprocessing path is deterministic: its
tensor output does not depend on the randomness stream, and running it
twice in sequence on the same file (the second run consuming whatever
randomness state the first run left) yields bit-identical normalized
tensors. -/
theorem C8_preprocess_deterministic (decode : String → RawImage)
    (path : String) (r₁ r₂ : Rng) :
    (preprocess_image decode path r₁).1 = (preprocess_image decode path r₂).1
    ∧ (preprocess_image decode path
        ((preprocess_image decode path r₁).2)).1
      = (preprocess_image decode path r₁).1 :=
  ⟨rfl, rfl⟩

/-- C9: an argument that is an existing regular file is appended to
the candidate list unconditionally, with no extension check, so it is
sent to prediction whatever its name. -/
theorem C9_file_arg_unfiltered (fs : FS) (p : String)
    (h : fs p = PathKind.file) :
    resolveOne fs p = [p]
    ∧ resolvePaths fs [p] = [p]
    ∧ mainDispatch (resolvePaths fs [p]) = MainOutcome.singleImage p
    ∧ predictionCalls (mainDispatch (resolvePaths fs [p])) = 1 := by
  have h1 : resolveOne fs p = [p] := by
    unfold resolveOne
    rw [h]
  have h2 : resolvePaths fs [p] = [p] := by
    simp [resolvePaths, h1]
  refine ⟨h1, h2, ?_, ?_⟩ <;> rw [h2] <;> rfl

/-- Witness for C9: a .txt file, which matches no image extension, is
still resolved and predicted. -/
theorem C9_file_arg_unfiltered_witness :
    (fun _ => PathKind.file : FS) ("notes.txt") = PathKind.file
    ∧ isImageName ("notes.txt") = false
    ∧ (resolveOne (fun _ => PathKind.file) ("notes.txt") = ["notes.txt"]
      ∧ resolvePaths (fun _ => PathKind.file) ["notes.txt"] = ["notes.txt"]
      ∧ mainDispatch (resolvePaths (fun _ => PathKind.file) ["notes.txt"])
          = MainOutcome.singleImage ("notes.txt")
      ∧ predictionCalls
          (mainDispatch (resolvePaths (fun _ => PathKind.file) ["notes.txt"]))
          = 1) :=
  ⟨rfl, by decide,
    C9_file_arg_unfiltered (fun _ => PathKind.file) ("notes.txt") rfl⟩

/-- C10: main loads the model before resolving any image paths: with a
missing model file every invocation fails with FileNotFoundError, even
when the arguments resolve to zero images, and the no-valid-images
outcome is reachable only after a successful model load. -/
theorem C10_load_before_resolution (fs : FS) (mp : String)
    (args : List String) :
    (fs mp = PathKind.missing →
      mainRun fs mp args = Except.error (LoadErr.fileNotFound mp)
      ∧ mainRun fs mp args ≠ Except.ok MainOutcome.noValidImages)
    ∧ (∀ o, mainRun fs mp args = Except.ok o → fileExists fs mp = true) := by
  constructor
  · intro h
    have hex : fileExists fs mp = false := by
      unfold fileExists
      rw [h]
    have herr : mainRun fs mp args = Except.error (LoadErr.fileNotFound mp) := by
      unfold mainRun load_model
      rw [hex]
      rfl
    exact ⟨herr, by rw [herr]; intro hcon; exact Except.noConfusion hcon⟩
  · intro o ho
    by_contra hne
    rw [Bool.not_eq_true] at hne
    unfold mainRun load_model at ho
    rw [hne] at ho
    exact Except.noConfusion ho

/-- Witness for C10: empty file system, arguments that resolve to zero
images, missing default model path. -/
theorem C10_load_before_resolution_witness :
    (fun _ => PathKind.missing : FS) MODEL_PATH = PathKind.missing
    ∧ resolvePaths (fun _ => PathKind.missing) ["x.txt"] = []
    ∧ (mainRun (fun _ => PathKind.missing) MODEL_PATH ["x.txt"]
        = Except.error (LoadErr.fileNotFound MODEL_PATH)
      ∧ mainRun (fun _ => PathKind.missing) MODEL_PATH ["x.txt"]
        ≠ Except.ok MainOutcome.noValidImages) :=
  ⟨rfl, rfl,
    (C10_load_before_resolution (fun _ => PathKind.missing) MODEL_PATH
      ["x.txt"]).1 rfl⟩

/-- Helper: one epoch step preserves the loop invariant, pushing the
iteration bound by one. -/
theorem esStep_inv (v : Nat → ℚ) (n : Nat) (s : ESState)
    (h : ESInv v n s) : ESInv v (n + 1) (esStep v s) := by
  obtain ⟨h1, h2, h3, h4, h5⟩ := h
  by_cases hs : s.stopped = true
  · have hstep : esStep v s = s := by
      unfold esStep
      rw [if_pos hs]
    rw [hstep]
    refine ⟨Nat.le_succ_of_le h1, ?_, h3, h4, h5⟩
    intro hf
    rw [hf] at hs
    exact Bool.noConfusion hs
  · rw [Bool.not_eq_true] at hs
    obtain ⟨hepoch, hwait⟩ := h2 hs
    by_cases him : improved s.best (v s.epoch) = true
    · have hstep : esStep v s
          = { epoch := s.epoch + 1, best := some (v s.epoch),
              bestEpoch := s.epoch, wait := 0, stopped := false,
              weights := s.epoch } := by
        unfold esStep
        rw [hs, if_neg Bool.false_ne_true, if_pos him]
      rw [hstep]
      refine ⟨Nat.succ_le_succ h1, ?_, ?_, ?_, ?_⟩
      · intro _
        exact ⟨by rw [hepoch], Nat.succ_pos 2⟩
      · intro hf
        exact Bool.noConfusion hf
      · intro hf
        exact Option.noConfusion hf
      · intro b hb
        obtain rfl : v s.epoch = b := Option.some.inj hb
        refine ⟨rfl, Nat.lt_succ_self _, ?_⟩
        intro i hi
        rcases Nat.lt_succ_iff_lt_or_eq.mp hi with hlt | rfl
        · cases hbest : s.best with
          | none =>
            have h0 := h4 hbest
            omega
          | some b0 =>
            have hib := (h5 b0 hbest).2.2 i hlt
            have hlt2 : v s.epoch < b0 := by
              unfold improved at him
              rw [hbest] at him
              exact of_decide_eq_true him
            linarith
        · exact le_refl _
    · rw [Bool.not_eq_true] at him
      have hbsome : ∃ b0, s.best = some b0 := by
        cases hbest : s.best with
        | none =>
          unfold improved at him
          rw [hbest] at him
          exact Bool.noConfusion him
        | some b0 => exact ⟨b0, rfl⟩
      obtain ⟨b0, hb0⟩ := hbsome
      have hnotlt : ¬ v s.epoch < b0 := by
        unfold improved at him
        rw [hb0] at him
        exact of_decide_eq_false him
      have hle : b0 ≤ v s.epoch := le_of_not_lt hnotlt
      have htail : ∀ b, s.best = some b →
          b = v s.bestEpoch ∧ s.bestEpoch < s.epoch + 1
            ∧ ∀ i < s.epoch + 1, b ≤ v i := by
        intro b hb
        obtain ⟨hbv, hblt, hball⟩ := h5 b hb
        refine ⟨hbv, Nat.lt_succ_of_lt hblt, ?_⟩
        intro i hi
        rcases Nat.lt_succ_iff_lt_or_eq.mp hi with hlt | rfl
        · exact hball i hlt
        · rw [hb0] at hb
          obtain rfl : b0 = b := Option.some.inj hb
          exact hle
      by_cases hw : s.wait + 1 ≥ PATIENCE
      · have hstep : esStep v s
            = { epoch := s.epoch + 1, best := s.best,
                bestEpoch := s.bestEpoch, wait := s.wait + 1,
                stopped := true, weights := s.bestEpoch } := by
          unfold esStep
          rw [hs, if_neg Bool.false_ne_true, him, if_neg Bool.false_ne_true,
            if_pos hw]
        rw [hstep]
        refine ⟨Nat.succ_le_succ h1, ?_, ?_, ?_, htail⟩
        · intro hf
          exact Bool.noConfusion hf
        · intro _
          refine ⟨?_, rfl, ?_⟩
          · show s.wait + 1 = PATIENCE
            unfold PATIENCE at hw hwait ⊢
            omega
          · rw [hb0]
            rfl
        · intro hf
          rw [hf] at hb0
          exact Option.noConfusion hb0
      · have hstep : esStep v s
            = { epoch := s.epoch + 1, best := s.best,
                bestEpoch := s.bestEpoch, wait := s.wait + 1,
                stopped := false, weights := s.epoch } := by
          unfold esStep
          rw [hs, if_neg Bool.false_ne_true, him, if_neg Bool.false_ne_true,
            if_neg hw]
        rw [hstep]
        refine ⟨Nat.succ_le_succ h1, ?_, ?_, ?_, htail⟩
        · intro _
          refine ⟨by rw [hepoch], ?_⟩
          show s.wait + 1 < PATIENCE
          unfold PATIENCE at hw ⊢
          omega
        · intro hf
          exact Bool.noConfusion hf
        · intro hf
          rw [hf] at hb0
          exact Option.noConfusion hb0

/-- Helper: the loop invariant holds after any number of epochs. -/
theorem esIter_inv (v : Nat → ℚ) (n : Nat) :
    ESInv v n ((esStep v)^[n] esInit) := by
  induction n with
  | zero =>
    refine ⟨Nat.le_refl 0, ?_, ?_, ?_, ?_⟩
    · intro _
      exact ⟨rfl, Nat.succ_pos 2⟩
    · intro hf
      exact Bool.noConfusion hf
    · intro _
      rfl
    · intro b hb
      exact Option.noConfusion hb
  | succ n ih =>
    rw [Function.iterate_succ_apply']
    exact esStep_inv v n _ ih

/-- C7: the epoch loop runs at most EPOCHS (10) iterations; when it
does not halt early it runs exactly EPOCHS; when validation loss fails
to improve for PATIENCE (3) consecutive epochs it halts with the wait
counter at 3 and the model parameters restored to the best epoch,
whose loss is minimal among all epochs run; and from any running state
a third consecutive non-improving epoch halts the loop and restores
the best weights. -/
theorem C7_early_stopping (v : Nat → ℚ) :
    (fitES v).epoch ≤ EPOCHS
    ∧ ((fitES v).stopped = false → (fitES v).epoch = EPOCHS)
    ∧ ((fitES v).stopped = true →
        (fitES v).wait = PATIENCE
        ∧ (fitES v).weights = (fitES v).bestEpoch
        ∧ ∃ b, (fitES v).best = some b ∧ b = v ((fitES v).bestEpoch)
            ∧ ∀ i < (fitES v).epoch, b ≤ v i)
    ∧ (∀ s : ESState, s.stopped = false → s.wait + 1 ≥ PATIENCE →
        improved s.best (v s.epoch) = false →
        (esStep v s).stopped = true
        ∧ (esStep v s).weights = s.bestEpoch) := by
  obtain ⟨h1, h2, h3, -, h5⟩ :
      (fitES v).epoch ≤ EPOCHS
      ∧ ((fitES v).stopped = false →
          (fitES v).epoch = EPOCHS ∧ (fitES v).wait < PATIENCE)
      ∧ ((fitES v).stopped = true →
          (fitES v).wait = PATIENCE
          ∧ (fitES v).weights = (fitES v).bestEpoch
          ∧ (fitES v).best.isSome = true)
      ∧ ((fitES v).best = none → (fitES v).epoch = 0)
      ∧ (∀ b, (fitES v).best = some b →
          b = v (fitES v).bestEpoch ∧ (fitES v).bestEpoch < (fitES v).epoch
          ∧ ∀ i < (fitES v).epoch, b ≤ v i) := by
    have hinv := esIter_inv v EPOCHS
    exact ⟨hinv.1, hinv.2.1, hinv.2.2.1, hinv.2.2.2.1, hinv.2.2.2.2⟩
  refine ⟨h1, fun hf => (h2 hf).1, ?_, ?_⟩
  · intro hstop
    obtain ⟨hw, hwt, hsome⟩ := h3 hstop
    obtain ⟨b, hb⟩ := Option.isSome_iff_exists.mp hsome
    obtain ⟨hbv, _, hball⟩ := h5 b hb
    exact ⟨hw, hwt, b, hb, hbv, hball⟩
  · intro s hs hw him
    have hstep : esStep v s
        = { epoch := s.epoch + 1, best := s.best,
            bestEpoch := s.bestEpoch, wait := s.wait + 1,
            stopped := true, weights := s.bestEpoch } := by
      unfold esStep
      rw [hs, if_neg Bool.false_ne_true, him, if_neg Bool.false_ne_true,
        if_pos hw]
    rw [hstep]
    exact ⟨rfl, rfl⟩

/-- Witness for C7 with a constant validation loss: the first epoch
sets the best, epochs 2 to 4 fail to improve, so the loop halts after
4 epochs with the weights of epoch 0 restored. -/
theorem C7_early_stopping_witness :
    (fitES (fun _ => (1 : ℚ))).stopped = true
    ∧ ((fitES (fun _ => (1 : ℚ))).wait = PATIENCE
      ∧ (fitES (fun _ => (1 : ℚ))).weights
          = (fitES (fun _ => (1 : ℚ))).bestEpoch
      ∧ ∃ b, (fitES (fun _ => (1 : ℚ))).best = some b
          ∧ b = (fun _ => (1 : ℚ)) ((fitES (fun _ => (1 : ℚ))).bestEpoch)
          ∧ ∀ i < (fitES (fun _ => (1 : ℚ))).epoch, b ≤ (fun _ => (1 : ℚ)) i) :=
  ⟨by decide, (C7_early_stopping (fun _ => (1 : ℚ))).2.2.1 (by decide)⟩

end ChestXray
